import Mathlib

/-!
Verification development for the girogi-ai repository (src/app.py and
src/init_store.py), a retrieval-augmented chat assistant: a corpus
synchronizer that uploads Markdown articles to a remote file-search store,
and a grounded query engine that turns the remote completion response into
an answer string plus a bounded citation list.

Python strings are modelled as Lean `String` (a list of characters, which
matches Python's code-point indexing and slicing), JSON objects with
optional fields as structures of `Option` fields, Python dicts keyed by
strings as association lists, Python sets of strings as lists read up to
membership, and HTTP calls as an explicit outcome value (timeout, raised
exception, or a response with a status code and a parsed body).
-/

namespace Girogi

/-! ### Grounded query engine: response data model (src/app.py, lines 113-154)

The response JSON is navigated with presence checks (`'x' in d`, `d.get`),
so every field that the code tests for is an `Option` here. -/

/-- One grounding chunk's `retrievedContext` object: `title` and `text` are
accessed with `ctx.get(...)` in src/app.py lines 141 and 146. -/
structure RetrievedContext where
  title : Option String
  text : Option String
  deriving DecidableEq, Repr

/-- One element of `groundingMetadata.groundingChunks` (src/app.py line 138). -/
structure GroundingChunk where
  retrievedContext : Option RetrievedContext
  deriving DecidableEq, Repr

/-- The `groundingMetadata` object of a candidate (src/app.py lines 134-136). -/
structure GroundingMeta where
  groundingChunks : Option (List GroundingChunk)
  deriving DecidableEq, Repr

/-- One element of `candidate.content.parts` (src/app.py lines 129-131). -/
structure MsgPart where
  text : Option String
  deriving DecidableEq, Repr

/-- The `content` object of a candidate (src/app.py line 128). -/
structure CandContent where
  parts : Option (List MsgPart)
  deriving DecidableEq, Repr

/-- One element of `result.candidates` (src/app.py lines 124-134). -/
structure Candidate where
  content : Option CandContent
  groundingMeta : Option GroundingMeta
  deriving DecidableEq, Repr

/-- The parsed JSON body of a 200 response (src/app.py line 119). -/
structure GeminiResult where
  candidates : Option (List Candidate)
  deriving DecidableEq, Repr

/-- A citation as accumulated by the loop at src/app.py lines 144-147:
a raw title and a snippet of at most 150 characters. -/
structure Citation where
  title : String
  text : String
  deriving DecidableEq, Repr

/-- Python's `s[:n]` on a string: the first `n` characters. -/
def pyTake (s : String) (n : Nat) : String := String.mk (s.data.take n)

/-- Snippet for one `retrievedContext`, mirroring
`ctx.get('text', '')[:150] if ctx.get('text') else ''` (src/app.py line 146):
an absent or empty (falsy) text gives `""`, otherwise the first 150
characters. -/
def snippetOf (ctx : RetrievedContext) : String :=
  match ctx.text with
  | none => ""
  | some t => if t = "" then "" else pyTake t 150

/-- The citation loop of src/app.py lines 137-147: walk the chunks in order,
keep only chunks carrying a `retrievedContext`, default the title to
`"Unknown"`, and skip titles already seen (`seen_titles` is a set, modelled
as the list of titles seen so far, read only through membership). -/
def citeLoop : List GroundingChunk → List String → List Citation
  | [], _ => []
  | ch :: chs, seen =>
    match ch.retrievedContext with
    | none => citeLoop chs seen
    | some ctx =>
      let title := ctx.title.getD "Unknown"
      if title ∈ seen then citeLoop chs seen
      else { title := title, text := snippetOf ctx } :: citeLoop chs (title :: seen)

/-- Citation extraction for one candidate (src/app.py lines 133-147): the
loop runs only when both `groundingMetadata` and `groundingChunks` are
present. -/
def extractCitations (cand : Candidate) : List Citation :=
  match cand.groundingMeta with
  | none => []
  | some g =>
    match g.groundingChunks with
    | none => []
    | some chs => citeLoop chs []

/-- Answer assembly for one candidate (src/app.py lines 127-131):
concatenate the `text` of every part that has one, in arrival order. -/
def extractAnswer (cand : Candidate) : String :=
  match cand.content with
  | none => ""
  | some c =>
    match c.parts with
    | none => ""
    | some ps => ps.foldl (fun acc p => acc ++ p.text.getD "") ""

/-- Outcome of the single `requests.post` call in `search_and_answer`
(src/app.py line 114): a network timeout, some other raised exception
(also covering a body that fails to parse as JSON), or a response with a
status code and parsed body. -/
inductive ReqOutcome where
  | timeout
  | exn (msg : String)
  | resp (status : Nat) (body : GeminiResult)
  deriving DecidableEq, Repr

/-- The fixed apology returned on timeout (src/app.py line 152). -/
def timeoutMsg : String := "응답 시간이 너무 오래 걸렸어요. 다시 시도해주세요!"

/-- The error string for a non-200 status (src/app.py line 117). -/
def apiErrMsg (status : Nat) : String := "API 오류가 발생했어요: " ++ toString status

/-- The error string for any other exception (src/app.py line 154). -/
def exnMsg (m : String) : String := "오류가 발생했어요: " ++ m

/-- Response handling of `search_and_answer` (src/app.py lines 113-154):
given the outcome of the HTTP call, produce the `(answer, citations)` pair
returned to the UI. Every branch of the Python `try`/`except` is a case
here; the function is total, so no outcome escapes as an exception. -/
def search_and_answer (o : ReqOutcome) : String × List Citation :=
  match o with
  | .timeout => (timeoutMsg, [])
  | .exn m => (exnMsg m, [])
  | .resp status body =>
    if status ≠ 200 then (apiErrMsg status, [])
    else
      match body.candidates with
      | some (cand :: _) => (extractAnswer cand, (extractCitations cand).take 5)
      | some [] => ("", [])
      | none => ("", [])

/-! ### Grounded query engine: request context (src/app.py lines 79-95) -/

/-- One message of the session transcript (`st.session_state.messages`):
a role string (`"user"` or `"assistant"`) and a content string. -/
structure ChatMsg where
  role : String
  content : String
  deriving DecidableEq, Repr

/-- One entry of the `contents` array sent to the endpoint; the single
`parts` element's text is inlined as `text`. -/
structure ReqContent where
  role : String
  text : String
  deriving DecidableEq, Repr

/-- Role mapping of src/app.py line 85:
`"user" if msg["role"] == "user" else "model"`. -/
def mapMsg (m : ChatMsg) : ReqContent :=
  { role := if m.role = "user" then "user" else "model", text := m.content }

/-- The `contents` construction of src/app.py lines 80-95: append the
mapped form of each of `chat_history[-6:]` (the last six prior messages,
`h.drop (h.length - 6)` in Lean), then the current query as a final
`"user"` turn. The loop is the fold; an empty history appends nothing,
which also covers the Python `if chat_history:` guard. -/
def buildContents (history : List ChatMsg) (query : String) : List ReqContent :=
  let prior := (history.drop (history.length - 6)).foldl
    (fun acc m => acc ++ [mapMsg m]) []
  prior ++ [{ role := "user", text := query }]

/-! ### Metadata generation (src/init_store.py, lines 61-135)

YAML frontmatter scalars that the code consumes are strings; the `author`
field may instead be a YAML list, which the code detects with
`isinstance(author, list)` (src/init_store.py line 117). -/

/-- The `author` value as it comes out of `yaml.safe_load`: either a single
scalar or an ordered list of scalars. -/
inductive AuthorVal where
  | str (s : String)
  | list (l : List String)
  deriving DecidableEq, Repr

/-- The frontmatter fields that `generate_metadata` reads
(src/init_store.py lines 116-123); each may be absent from the parsed
mapping. A parse failure yields the all-`none` record, matching the `{}`
returned by `parse_frontmatter` on error. -/
structure Frontmatter where
  title : Option String
  author : Option AuthorVal
  source : Option String
  deriving DecidableEq, Repr

/-- One Markdown document of the data directory: its filename stem (the
metadata key, src/init_store.py line 107) and its parsed frontmatter. -/
structure MdDoc where
  stem : String
  fm : Frontmatter
  deriving DecidableEq, Repr

/-- The default organization name used when the author list is empty or the
field is absent (src/init_store.py line 118). -/
def defaultAuthor : String := "기록과 사회"

/-- One value of the article metadata mapping (src/init_store.py
lines 120-124). -/
structure ArticleRecord where
  title : String
  url : String
  author : String
  deriving DecidableEq, Repr

/-- The record derived for a new key (src/init_store.py lines 113-124):
`frontmatter.get('author', [])` defaults to the empty list, a list author
is normalized to its first element or the default name, scalars are kept;
`title` defaults to the key and `url` to the empty string. -/
def deriveRecord (d : MdDoc) : ArticleRecord :=
  let a := d.fm.author.getD (.list [])
  let author :=
    match a with
    | .list l => l.headD defaultAuthor
    | .str s => s
  { title := d.fm.title.getD d.stem
    url := d.fm.source.getD ""
    author := author }

/-- The article metadata mapping, a Python dict keyed by document stem.
Insertion of a fresh key appends (Python dicts preserve insertion order),
so an association list without duplicate keys models it. -/
abbrev Metadata := List (String × ArticleRecord)

/-- Python `key in metadata` (src/init_store.py line 110). -/
def hasKey : Metadata → String → Bool
  | [], _ => false
  | (k', _) :: rest, k => if k' = k then true else hasKey rest k

/-- Python `metadata[key]` read access, first match. -/
def lookupKey : Metadata → String → Option ArticleRecord
  | [], _ => none
  | (k', r) :: rest, k => if k' = k then some r else lookupKey rest k

/-- The per-file loop of `generate_metadata` (src/init_store.py
lines 105-125): a key already present is skipped, a fresh key is inserted
at the end with its derived record. -/
def mergeDocs : Metadata → List MdDoc → Metadata
  | m, [] => m
  | m, d :: ds =>
    if hasKey m d.stem then mergeDocs m ds
    else mergeDocs (m ++ [(d.stem, deriveRecord d)]) ds

/-- The function `generate_metadata` (src/init_store.py lines 89-128) with
the filesystem made explicit: `existing` is the mapping loaded by
`load_existing_metadata`, `dirExists` is `DATA_PATH.exists()`, and `docs`
are the `*.md` files of the data directory. When the directory is missing
the existing mapping is returned unchanged (line 96-98). -/
def generate_metadata (dirExists : Bool) (docs : List MdDoc) (existing : Metadata) :
    Metadata :=
  if dirExists then mergeDocs existing docs else existing

/-! ### Citation resolver (src/app.py, lines 219-226) -/

/-- One entry of `article_metadata.json` as read by the app: the canonical
title and URL (the `author` field is not used by `get_article_info`). -/
structure AppEntry where
  title : String
  url : String
  deriving DecidableEq, Repr

/-- What `get_article_info` returns: a display title and an optional URL
(`None` when the key is not in the metadata). -/
structure ResolvedInfo where
  title : String
  url : Option String
  deriving DecidableEq, Repr

/-- The loaded article metadata on the app side. -/
abbrev AppMetadata := List (String × AppEntry)

/-- Dict membership plus access for the app-side metadata. -/
def appLookup : AppMetadata → String → Option AppEntry
  | [], _ => none
  | (k', e) :: rest, k => if k' = k then some e else appLookup rest k

/-- Python `filename.replace('.md', '')` (src/app.py line 223): remove
every non-overlapping occurrence of the three characters `".md"`, scanning
left to right — not only a trailing `".md"` suffix. -/
def stripMdAll : List Char → List Char
  | [] => []
  | [c] => [c]
  | [c1, c2] => [c1, c2]
  | c1 :: c2 :: c3 :: rest =>
    if c1 = '.' ∧ c2 = 'm' ∧ c3 = 'd' then stripMdAll rest
    else c1 :: stripMdAll (c2 :: c3 :: rest)

/-- The key computed by `get_article_info` from a raw citation title. -/
def keyOf (filename : String) : String := String.mk (stripMdAll filename.data)

/-- The function `get_article_info` (src/app.py lines 219-226): look the
computed key up in the metadata; on a hit return that entry's title and
URL, on a miss return the raw title with no URL. -/
def get_article_info (metadata : AppMetadata) (filename : String) : ResolvedInfo :=
  match appLookup metadata (keyOf filename) with
  | some e => { title := e.title, url := some e.url }
  | none => { title := filename, url := none }

/-- Modelled from the spec: the Citation Resolver as the spec words it —
"strips a `.md` suffix from it and looks up the resulting key". Only a
trailing `".md"` is removed; used to compare against `get_article_info`. -/
def specResolve (metadata : AppMetadata) (filename : String) : ResolvedInfo :=
  let l := filename.data
  let key :=
    if l.drop (l.length - 3) = ['.', 'm', 'd'] then String.mk (l.take (l.length - 3))
    else filename
  match appLookup metadata key with
  | some e => { title := e.title, url := some e.url }
  | none => { title := filename, url := none }

/-! ### Corpus synchronizer (src/init_store.py, lines 138-299)

The upload phase of `main` is modelled with the HTTP behaviour made
explicit: each local file carries its size and whether `upload_file` would
succeed for it, and the two store-management calls are outcome values. -/

/-- The 10 MiB ceiling of src/init_store.py line 275. -/
def maxUpload : Nat := 10 * 1024 * 1024

/-- One local `*.md` file as the sync loop sees it: its name, its size in
bytes, and whether `upload_file` returns `True` for it (`upload_file`
already catches its own exceptions and returns a boolean,
src/init_store.py lines 164-191). -/
structure SyncFile where
  name : String
  size : Nat
  ok : Bool
  deriving DecidableEq, Repr

/-- Observable events of one sync run, in program order: an oversized file
skipped, a successful upload, a failed upload, and a write of the upload
tracker with the given contents (`save_uploaded_files`,
src/init_store.py lines 55-58 and 294). -/
inductive SyncEv where
  | skip (name : String)
  | upOk (name : String)
  | upFail (name : String)
  | save (tracked : List String)
  deriving DecidableEq, Repr

/-- Result of the upload loop (src/init_store.py lines 270-288): its event
trace, the in-memory tracked set after the loop (`uploaded_files`, a set
modelled by a list read through membership), and the two tallies printed
at line 291. -/
structure BatchOut where
  evs : List SyncEv
  tracked : List String
  uploaded : Nat
  failed : Nat
  deriving DecidableEq, Repr

/-- The upload loop of src/init_store.py lines 273-288: a file over the
ceiling is skipped with `continue` (not tracked, not tallied); otherwise a
successful upload bumps `uploaded` and adds the name to the tracked set,
and a failure bumps `failed`. No tracker write happens inside the loop. -/
def uploadLoop : List String → List SyncFile → BatchOut
  | t, [] => { evs := [], tracked := t, uploaded := 0, failed := 0 }
  | t, f :: fs =>
    if maxUpload < f.size then
      let r := uploadLoop t fs
      { r with evs := SyncEv.skip f.name :: r.evs }
    else if f.ok then
      let r := uploadLoop (f.name :: t) fs
      { r with evs := SyncEv.upOk f.name :: r.evs, uploaded := r.uploaded + 1 }
    else
      let r := uploadLoop t fs
      { r with evs := SyncEv.upFail f.name :: r.evs, failed := r.failed + 1 }

/-- The delta computation of src/init_store.py line 261:
`[f for f in md_files if f.name not in uploaded_files]`. -/
def newFilesOf (disk : List String) (mdFiles : List SyncFile) : List SyncFile :=
  mdFiles.filter (fun f => decide (f.name ∉ disk))

/-- The upload phase of `main` (src/init_store.py lines 258-294) as an
event trace, starting from the on-disk tracker contents: with no new files
the function returns before any upload or save (line 263-265); otherwise
the whole batch runs and the tracker is saved exactly once afterwards
(line 294). -/
def runSync (disk : List String) (mdFiles : List SyncFile) : List SyncEv :=
  let nf := newFilesOf disk mdFiles
  if nf.isEmpty then []
  else
    let r := uploadLoop disk nf
    r.evs ++ [SyncEv.save r.tracked]

/-- The on-disk tracker after executing a prefix of a run's events: only a
`save` event changes the persisted file. A run that crashes after `k`
events leaves the disk at `diskAfter disk (trace.take k)`. -/
def diskAfter (disk : List String) : List SyncEv → List String
  | [] => disk
  | SyncEv.skip _ :: evs => diskAfter disk evs
  | SyncEv.upOk _ :: evs => diskAfter disk evs
  | SyncEv.upFail _ :: evs => diskAfter disk evs
  | SyncEv.save t :: evs => diskAfter t evs

/-- Recognizer for tracker writes. -/
def isSave : SyncEv → Bool
  | SyncEv.save _ => true
  | _ => false

/-- Names of files whose upload completed successfully in a trace. -/
def completedUploads (evs : List SyncEv) : List String :=
  evs.filterMap (fun e => match e with | SyncEv.upOk n => some n | _ => none)

/-! ### Store bootstrap (src/init_store.py, lines 138-161 and 235-250) -/

/-- Outcome of one `requests` call on the store-management path: either the
library raised (network error), or a response with a status code and a
parsed body arrived. -/
inductive NetResult (α : Type) where
  | exn (msg : String)
  | resp (status : Nat) (body : α)
  deriving DecidableEq, Repr

/-- One store returned by the listing endpoint: its `displayName` and
resource `name` (absent fields default to `""` via `s.get`,
src/init_store.py line 237). -/
structure StoreEntry where
  displayName : String
  name : String
  deriving DecidableEq, Repr

/-- The function `list_stores` (src/init_store.py lines 138-146): a raised
exception propagates (`Except.error`), a 200 response yields its store
list, and any other status yields the empty list — it does NOT raise. -/
def list_stores (r : NetResult (List StoreEntry)) : Except String (List StoreEntry) :=
  match r with
  | .exn m => .error m
  | .resp s body => if s = 200 then .ok body else .ok []

/-- The function `create_store` (src/init_store.py lines 149-161): a raised
exception propagates, a 200 response yields the created store, and any
other status raises `Exception(f"스토어 생성 실패: {status}")`. -/
def create_store (r : NetResult StoreEntry) : Except String StoreEntry :=
  match r with
  | .exn m => .error m
  | .resp s body =>
    if s = 200 then .ok body else .error ("스토어 생성 실패: " ++ toString s)

/-- The display name used by `main` (src/init_store.py line 233). -/
def storeName : String := "girogi-ai-archive"

/-- The dict comprehension of src/init_store.py line 237 followed by the
lookup at line 241-242: for duplicate display names the later entry wins,
as in a Python dict comprehension. -/
def existingMapLookup (stores : List StoreEntry) (k : String) : Option String :=
  stores.foldl (fun acc s => if s.displayName = k then some s.name else acc) none

/-- The store-identity phase of `main` (src/init_store.py lines 235-248):
list the stores, reuse a store whose display name matches, otherwise
create one. An `Except.error` is an uncaught Python exception that aborts
the run before any upload. -/
def bootstrap (listR : NetResult (List StoreEntry)) (createR : NetResult StoreEntry) :
    Except String String :=
  match list_stores listR with
  | .error m => .error m
  | .ok stores =>
    match existingMapLookup stores storeName with
    | some sid => .ok sid
    | none =>
      match create_store createR with
      | .error m => .error m
      | .ok r => .ok r.name

/-- How one ingestion run of `main` (src/init_store.py lines 210-299) ends,
from the store phase onwards (metadata generation at line 217 runs before
and is independent): `fatal` is an uncaught exception, `noData` the early
return when `data/` is missing, `noNew` the early return when the delta is
empty, and `done` a completed batch whose tracker was saved. -/
inductive RunOutcome where
  | fatal (msg : String)
  | noData
  | noNew
  | done (r : BatchOut)
  deriving DecidableEq, Repr

/-- The ingestion run from the store phase onwards (src/init_store.py
lines 235-294), with the filesystem and both HTTP calls explicit. -/
def ingestRun (listR : NetResult (List StoreEntry)) (createR : NetResult StoreEntry)
    (dataDirExists : Bool) (mdFiles : List SyncFile) (disk : List String) :
    RunOutcome :=
  match bootstrap listR createR with
  | .error m => .fatal m
  | .ok _ =>
    if !dataDirExists then .noData
    else
      let nf := newFilesOf disk mdFiles
      if nf.isEmpty then .noNew
      else .done (uploadLoop disk nf)

/-- Classifies an outcome of the listing call as a failure of the listing
operation: the library raised, or the service answered with a non-200
status. -/
def listingFailed (r : NetResult (List StoreEntry)) : Bool :=
  match r with
  | .exn _ => true
  | .resp s _ => decide (s ≠ 200)

/-! ### Helper lemmas -/

/-- Raw title stream of the grounding chunks: one title (defaulted to
`"Unknown"`) per chunk carrying a `retrievedContext`, in chunk order. -/
def chunkTitles : List GroundingChunk → List String
  | [] => []
  | ch :: chs =>
    match ch.retrievedContext with
    | none => chunkTitles chs
    | some ctx => ctx.title.getD "Unknown" :: chunkTitles chs

/-- First-seen deduplication of a title stream, avoiding an initial seen
set: the reference behaviour that the citation loop's `seen_titles` set is
proved to implement. -/
def dedupAvoid : List String → List String → List String
  | _, [] => []
  | seen, t :: ts =>
    if t ∈ seen then dedupAvoid seen ts
    else t :: dedupAvoid (t :: seen) ts

theorem citeLoop_titles : ∀ (chs : List GroundingChunk) (seen : List String),
    (citeLoop chs seen).map (fun c => c.title) = dedupAvoid seen (chunkTitles chs) := by
  intro chs
  induction chs with
  | nil => intro seen; rfl
  | cons ch chs ih =>
    intro seen
    cases hctx : ch.retrievedContext with
    | none => simp [citeLoop, chunkTitles, hctx, ih]
    | some ctx =>
      by_cases hmem : ctx.title.getD "Unknown" ∈ seen
      · simp [citeLoop, chunkTitles, hctx, dedupAvoid, hmem, ih]
      · simp [citeLoop, chunkTitles, hctx, dedupAvoid, hmem, ih]

theorem snippetOf_length_le (ctx : RetrievedContext) : (snippetOf ctx).length ≤ 150 := by
  cases htext : ctx.text with
  | none => simp [snippetOf, htext, String.length]
  | some t =>
    by_cases ht : t = ""
    · simp [snippetOf, htext, ht, String.length]
    · have hlen : (pyTake t 150).length = (t.data.take 150).length := rfl
      simp only [snippetOf, htext, if_neg ht, hlen, List.length_take]
      omega

theorem citeLoop_text_le : ∀ (chs : List GroundingChunk) (seen : List String)
    (c : Citation), c ∈ citeLoop chs seen → c.text.length ≤ 150 := by
  intro chs
  induction chs with
  | nil => intro seen c hc; simp [citeLoop] at hc
  | cons ch chs ih =>
    intro seen c hc
    cases hctx : ch.retrievedContext with
    | none =>
      rw [citeLoop, hctx] at hc
      exact ih seen c hc
    | some ctx =>
      simp only [citeLoop, hctx] at hc
      by_cases hmem : ctx.title.getD "Unknown" ∈ seen
      · rw [if_pos hmem] at hc
        exact ih seen c hc
      · rw [if_neg hmem] at hc
        rcases List.mem_cons.mp hc with hc | hc
        · rw [hc]
          exact snippetOf_length_le ctx
        · exact ih _ c hc

theorem foldl_push_map {α β : Type} (f : α → β) :
    ∀ (l : List α) (acc : List β),
      l.foldl (fun a m => a ++ [f m]) acc = acc ++ l.map f := by
  intro l
  induction l with
  | nil => intro acc; simp
  | cons x xs ih => intro acc; simp [ih, List.append_assoc]

theorem uploadLoop_tracked_mem : ∀ (fs : List SyncFile) (t : List String) (n : String),
    n ∈ (uploadLoop t fs).tracked ↔
      n ∈ t ∨ ∃ f, f ∈ fs ∧ f.name = n ∧ f.size ≤ maxUpload ∧ f.ok = true := by
  intro fs
  induction fs with
  | nil => intro t n; simp [uploadLoop]
  | cons f fs ih =>
    intro t n
    by_cases hbig : maxUpload < f.size
    · have hnotle : ¬ f.size ≤ maxUpload := Nat.not_le.mpr hbig
      simp only [uploadLoop, if_pos hbig, ih, List.mem_cons]
      constructor
      · rintro (h | ⟨g, hg, rest⟩)
        · exact Or.inl h
        · exact Or.inr ⟨g, Or.inr hg, rest⟩
      · rintro (h | ⟨g, hg | hg, rest⟩)
        · exact Or.inl h
        · rw [hg] at rest
          exact absurd rest.2.1 hnotle
        · exact Or.inr ⟨g, hg, rest⟩
    · have hle : f.size ≤ maxUpload := Nat.not_lt.mp hbig
      by_cases hok : f.ok = true
      · simp only [uploadLoop, if_neg hbig, if_pos hok, ih, List.mem_cons]
        constructor
        · rintro ((h | h) | ⟨g, hg, rest⟩)
          · exact Or.inr ⟨f, Or.inl rfl, h.symm, hle, hok⟩
          · exact Or.inl h
          · exact Or.inr ⟨g, Or.inr hg, rest⟩
        · rintro (h | ⟨g, hg | hg, rest⟩)
          · exact Or.inl (Or.inr h)
          · rw [hg] at rest
            exact Or.inl (Or.inl rest.1.symm)
          · exact Or.inr ⟨g, hg, rest⟩
      · simp only [uploadLoop, if_neg hbig, if_neg hok, ih, List.mem_cons]
        constructor
        · rintro (h | ⟨g, hg, rest⟩)
          · exact Or.inl h
          · exact Or.inr ⟨g, Or.inr hg, rest⟩
        · rintro (h | ⟨g, hg | hg, rest⟩)
          · exact Or.inl h
          · rw [hg] at rest
            exact absurd rest.2.2 hok
          · exact Or.inr ⟨g, hg, rest⟩

theorem uploadLoop_uploaded : ∀ (fs : List SyncFile) (t : List String),
    (uploadLoop t fs).uploaded
      = (fs.filter (fun f => decide (f.size ≤ maxUpload) && f.ok)).length := by
  intro fs
  induction fs with
  | nil => intro t; rfl
  | cons f fs ih =>
    intro t
    by_cases hbig : maxUpload < f.size
    · have hd : decide (f.size ≤ maxUpload) = false :=
        decide_eq_false (Nat.not_le.mpr hbig)
      simp [uploadLoop, if_pos hbig, ih, List.filter_cons, hd]
    · have hle : f.size ≤ maxUpload := Nat.not_lt.mp hbig
      have hd : decide (f.size ≤ maxUpload) = true := decide_eq_true hle
      by_cases hok : f.ok = true
      · simp [uploadLoop, if_neg hbig, hok, ih, List.filter_cons, hd]
      · have hok' : f.ok = false := Bool.not_eq_true _ |>.mp hok
        simp [uploadLoop, if_neg hbig, hok', ih, List.filter_cons, hd]

theorem uploadLoop_failed : ∀ (fs : List SyncFile) (t : List String),
    (uploadLoop t fs).failed
      = (fs.filter (fun f => decide (f.size ≤ maxUpload) && !f.ok)).length := by
  intro fs
  induction fs with
  | nil => intro t; rfl
  | cons f fs ih =>
    intro t
    by_cases hbig : maxUpload < f.size
    · have hd : decide (f.size ≤ maxUpload) = false :=
        decide_eq_false (Nat.not_le.mpr hbig)
      simp [uploadLoop, if_pos hbig, ih, List.filter_cons, hd]
    · have hle : f.size ≤ maxUpload := Nat.not_lt.mp hbig
      have hd : decide (f.size ≤ maxUpload) = true := decide_eq_true hle
      by_cases hok : f.ok = true
      · simp [uploadLoop, if_neg hbig, hok, ih, List.filter_cons, hd]
      · have hok' : f.ok = false := Bool.not_eq_true _ |>.mp hok
        simp [uploadLoop, if_neg hbig, hok', ih, List.filter_cons, hd]

theorem uploadLoop_evs_length : ∀ (fs : List SyncFile) (t : List String),
    (uploadLoop t fs).evs.length = fs.length := by
  intro fs
  induction fs with
  | nil => intro t; rfl
  | cons f fs ih =>
    intro t
    by_cases hbig : maxUpload < f.size
    · simp [uploadLoop, if_pos hbig, ih]
    · by_cases hok : f.ok = true
      · simp [uploadLoop, if_neg hbig, hok, ih]
      · have hok' : f.ok = false := Bool.not_eq_true _ |>.mp hok
        simp [uploadLoop, if_neg hbig, hok', ih]

theorem uploadLoop_no_save : ∀ (fs : List SyncFile) (t : List String)
    (e : SyncEv), e ∈ (uploadLoop t fs).evs → isSave e = false := by
  intro fs
  induction fs with
  | nil => intro t e he; simp [uploadLoop] at he
  | cons f fs ih =>
    intro t e he
    by_cases hbig : maxUpload < f.size
    · simp only [uploadLoop, if_pos hbig, List.mem_cons] at he
      rcases he with he | he
      · rw [he]; rfl
      · exact ih t e he
    · by_cases hok : f.ok = true
      · simp only [uploadLoop, if_neg hbig, if_pos hok, List.mem_cons] at he
        rcases he with he | he
        · rw [he]; rfl
        · exact ih _ e he
      · simp only [uploadLoop, if_neg hbig, if_neg hok, List.mem_cons] at he
        rcases he with he | he
        · rw [he]; rfl
        · exact ih t e he

theorem diskAfter_no_save : ∀ (evs : List SyncEv) (disk : List String),
    (∀ e, e ∈ evs → isSave e = false) → diskAfter disk evs = disk := by
  intro evs
  induction evs with
  | nil => intro disk _; rfl
  | cons e evs ih =>
    intro disk h
    cases e with
    | skip n => exact ih disk (fun e he => h e (List.mem_cons_of_mem _ he))
    | upOk n => exact ih disk (fun e he => h e (List.mem_cons_of_mem _ he))
    | upFail n => exact ih disk (fun e he => h e (List.mem_cons_of_mem _ he))
    | save t =>
      have : isSave (SyncEv.save t) = false := h _ (List.mem_cons_self _ _)
      simp [isSave] at this

theorem runSync_eq (disk : List String) (mdFiles : List SyncFile)
    (hne : newFilesOf disk mdFiles ≠ []) :
    runSync disk mdFiles
      = (uploadLoop disk (newFilesOf disk mdFiles)).evs
        ++ [SyncEv.save (uploadLoop disk (newFilesOf disk mdFiles)).tracked] := by
  have he : (newFilesOf disk mdFiles).isEmpty = false := by
    simp [List.isEmpty_iff, hne]
  simp [runSync, he]

theorem hasKey_append (m m' : Metadata) (k : String) :
    hasKey (m ++ m') k = (hasKey m k || hasKey m' k) := by
  induction m with
  | nil => simp [hasKey]
  | cons p rest ih =>
    by_cases hk : p.1 = k
    · simp [hasKey, hk]
    · simp [hasKey, hk, ih]

theorem mergeDocs_hasKey_mono : ∀ (ds : List MdDoc) (m : Metadata) (k : String),
    hasKey m k = true → hasKey (mergeDocs m ds) k = true := by
  intro ds
  induction ds with
  | nil => intro m k h; exact h
  | cons d ds ih =>
    intro m k h
    by_cases hd : hasKey m d.stem = true
    · rw [mergeDocs, if_pos hd]
      exact ih m k h
    · rw [mergeDocs, if_neg hd]
      refine ih _ k ?_
      rw [hasKey_append, h]
      rfl

theorem mergeDocs_hasKey_all : ∀ (ds : List MdDoc) (m : Metadata) (d : MdDoc),
    d ∈ ds → hasKey (mergeDocs m ds) d.stem = true := by
  intro ds
  induction ds with
  | nil => intro m d hd; simp at hd
  | cons d0 ds ih =>
    intro m d hd
    rcases List.mem_cons.mp hd with hd | hd
    · by_cases h0 : hasKey m d0.stem = true
      · rw [mergeDocs, if_pos h0, hd]
        exact mergeDocs_hasKey_mono ds m d0.stem h0
      · rw [mergeDocs, if_neg h0, hd]
        refine mergeDocs_hasKey_mono ds _ d0.stem ?_
        rw [hasKey_append]
        simp [hasKey]
    · by_cases h0 : hasKey m d0.stem = true
      · rw [mergeDocs, if_pos h0]
        exact ih m d hd
      · rw [mergeDocs, if_neg h0]
        exact ih _ d hd

theorem mergeDocs_stable : ∀ (ds : List MdDoc) (m : Metadata),
    (∀ d, d ∈ ds → hasKey m d.stem = true) → mergeDocs m ds = m := by
  intro ds
  induction ds with
  | nil => intro m _; rfl
  | cons d ds ih =>
    intro m h
    rw [mergeDocs, if_pos (h d (List.mem_cons_self _ _))]
    exact ih m (fun d' hd' => h d' (List.mem_cons_of_mem _ hd'))

theorem lookupKey_append_left (m m' : Metadata) (k : String) (r : ArticleRecord)
    (h : lookupKey m k = some r) : lookupKey (m ++ m') k = some r := by
  induction m with
  | nil => simp [lookupKey] at h
  | cons p rest ih =>
    by_cases hk : p.1 = k
    · rw [lookupKey, if_pos hk] at h
      rw [List.cons_append, lookupKey, if_pos hk]
      exact h
    · rw [lookupKey, if_neg hk] at h
      rw [List.cons_append, lookupKey, if_neg hk]
      exact ih h

theorem mergeDocs_lookup_preserved : ∀ (ds : List MdDoc) (m : Metadata)
    (k : String) (r : ArticleRecord),
    lookupKey m k = some r → lookupKey (mergeDocs m ds) k = some r := by
  intro ds
  induction ds with
  | nil => intro m k r h; exact h
  | cons d ds ih =>
    intro m k r h
    by_cases hd : hasKey m d.stem = true
    · rw [mergeDocs, if_pos hd]
      exact ih m k r h
    · rw [mergeDocs, if_neg hd]
      exact ih _ k r (lookupKey_append_left m _ k r h)

theorem mergeDocs_new_keys : ∀ (ds : List MdDoc) (m : Metadata) (k : String),
    hasKey (mergeDocs m ds) k = true →
      hasKey m k = true ∨ ∃ d, d ∈ ds ∧ d.stem = k := by
  intro ds
  induction ds with
  | nil => intro m k h; exact Or.inl h
  | cons d ds ih =>
    intro m k h
    by_cases hd : hasKey m d.stem = true
    · rw [mergeDocs, if_pos hd] at h
      rcases ih m k h with h | ⟨d', hd', hk⟩
      · exact Or.inl h
      · exact Or.inr ⟨d', List.mem_cons_of_mem _ hd', hk⟩
    · rw [mergeDocs, if_neg hd] at h
      rcases ih _ k h with h | ⟨d', hd', hk⟩
      · rw [hasKey_append] at h
        rcases Bool.or_eq_true_iff.mp h with h | h
        · exact Or.inl h
        · have : d.stem = k := by
            by_cases hk : d.stem = k
            · exact hk
            · simp [hasKey, hk] at h
          exact Or.inr ⟨d, List.mem_cons_self _ _, this⟩
      · exact Or.inr ⟨d', List.mem_cons_of_mem _ hd', hk⟩

/-! ### Claim theorems -/

/-- Claim C3: for every outcome of the HTTP call, the grounded-query
function returns a displayable string plus a citation list (it is a total
function into that pair type, so no exception reaches the caller): on a
timeout it returns the fixed apology and no citations, on any non-200
status it returns the formatted error string carrying the status code and
no citations, and on any other exception it returns a formatted error
string and no citations. -/
theorem C3_error_paths :
    search_and_answer ReqOutcome.timeout = (timeoutMsg, [])
    ∧ (∀ (s : Nat) (b : GeminiResult), s ≠ 200 →
        search_and_answer (ReqOutcome.resp s b) = (apiErrMsg s, [])
        ∧ apiErrMsg s = "API 오류가 발생했어요: " ++ toString s)
    ∧ (∀ m : String, search_and_answer (ReqOutcome.exn m) = (exnMsg m, [])) := by
  refine ⟨rfl, ?_, fun m => rfl⟩
  intro s b hs
  refine ⟨?_, rfl⟩
  simp only [search_and_answer]
  rw [if_pos hs]

/-- Witness for C3 at status 500 with an arbitrary body. -/
theorem C3_error_paths_witness :
    search_and_answer (ReqOutcome.resp 500 { candidates := none })
      = (apiErrMsg 500, []) :=
  (C3_error_paths.2.1 500 { candidates := none } (by decide)).1

/-- Claim C10: a 200 response whose body has no `candidates` field or an
empty `candidates` list yields the empty string as the answer and an empty
citation list, with no error indication. -/
theorem C10_empty_candidates : ∀ (b : GeminiResult),
    b.candidates = none ∨ b.candidates = some [] →
    search_and_answer (ReqOutcome.resp 200 b) = ("", []) := by
  intro b hb
  rcases hb with hb | hb <;> simp [search_and_answer, hb]

/-- Witness for C10 at a body with an absent `candidates` field. -/
theorem C10_empty_candidates_witness :
    search_and_answer (ReqOutcome.resp 200 { candidates := none }) = ("", []) :=
  C10_empty_candidates { candidates := none } (Or.inl rfl)

/-- A grounding chunk whose retrieved context has just a title, and the
concrete title sequence A, B, A, C, A of the claim. -/
def chunkT (t : String) : GroundingChunk :=
  { retrievedContext := some { title := some t, text := none } }

def exampleChunks : List GroundingChunk :=
  [chunkT "A", chunkT "B", chunkT "A", chunkT "C", chunkT "A"]

/-- A 300-character snippet text and a chunk carrying it. -/
def text300 : String := String.mk (List.replicate 300 'x')

def chunk300 : GroundingChunk :=
  { retrievedContext := some { title := some "T", text := some text300 } }

set_option maxRecDepth 8000 in
/-- Claim C4: citation extraction walks the grounding chunks in order,
taking per retrieved-context chunk the title (defaulted to `"Unknown"`)
and at most the first 150 characters of the snippet; the list is
deduplicated by title in first-seen order (the `dedupAvoid` reference
recursion) and capped at 5 entries at the return site; titles
`[A, B, A, C, A]` yield `[A, B, C]` and a 300-character snippet is stored
with exactly 150 characters. -/
theorem C4_citation_extraction :
    (∀ (chs : List GroundingChunk),
      (citeLoop chs []).map (fun c => c.title) = dedupAvoid [] (chunkTitles chs)
      ∧ ((citeLoop chs []).take 5).length ≤ 5
      ∧ (∀ c, c ∈ citeLoop chs [] → c.text.length ≤ 150))
    ∧ (∀ (cand : Candidate) (rest : List Candidate),
        (search_and_answer (ReqOutcome.resp 200 { candidates := some (cand :: rest) })).2
          = (extractCitations cand).take 5)
    ∧ (citeLoop exampleChunks []).map (fun c => c.title) = ["A", "B", "C"]
    ∧ ((citeLoop [chunk300] []).take 5).map (fun c => c.text.length) = [150] := by
  refine ⟨?_, ?_, by decide, ?_⟩
  · intro chs
    refine ⟨citeLoop_titles chs [], ?_, citeLoop_text_le chs []⟩
    rw [List.length_take]
    omega
  · intro cand rest
    simp [search_and_answer]
  · decide

/-- Witness for C4: the snippet bound applied to a concrete extracted
citation. -/
theorem C4_citation_extraction_witness :
    (({ title := "A", text := "" } : Citation) ∈ citeLoop [chunkT "A"] [])
    ∧ ({ title := "A", text := "" } : Citation).text.length ≤ 150 :=
  ⟨by decide,
   (C4_citation_extraction.1 [chunkT "A"]).2.2 { title := "A", text := "" } (by decide)⟩

/-- A transcript of 8 prior messages (4 user/assistant exchanges). -/
def hist8 : List ChatMsg :=
  [{ role := "user", content := "m1" }, { role := "assistant", content := "m2" },
   { role := "user", content := "m3" }, { role := "assistant", content := "m4" },
   { role := "user", content := "m5" }, { role := "assistant", content := "m6" },
   { role := "user", content := "m7" }, { role := "assistant", content := "m8" }]

/-- Claim C5: the request context is the mapped form of at most the last 6
prior messages of the transcript, in original order (they are the final
segment of the transcript: the dropped prefix plus them re-concatenate to
it), with roles user mapped to `"user"` and anything else (assistant) to
`"model"`, followed by the current query as the final user turn; with 8
prior messages exactly the last 6 are sent. -/
theorem C5_bounded_context :
    (∀ (h : List ChatMsg) (q : String),
      buildContents h q
        = ((h.drop (h.length - 6)).map mapMsg) ++ [{ role := "user", text := q }]
      ∧ (h.drop (h.length - 6)).length ≤ 6
      ∧ h.take (h.length - 6) ++ h.drop (h.length - 6) = h)
    ∧ (∀ m : ChatMsg,
        (mapMsg m).role = (if m.role = "user" then "user" else "model")
        ∧ (mapMsg m).text = m.content)
    ∧ buildContents hist8 "What is the main theme?"
        = ((hist8.drop 2).map mapMsg)
          ++ [{ role := "user", text := "What is the main theme?" }]
    ∧ (hist8.drop 2).length = 6 := by
  refine ⟨?_, fun m => ⟨rfl, rfl⟩, by decide, by decide⟩
  intro h q
  refine ⟨?_, ?_, List.take_append_drop _ _⟩
  · simp [buildContents, foldl_push_map]
  · rw [List.length_drop]
    omega

/-- Claim C6: `generate_metadata` is additive and idempotent — running it
twice over an unchanged directory gives the identical mapping, every key
already present keeps its record untouched, any key it reports that was
not already present comes from a document of the directory, and a missing
document directory returns the existing mapping unchanged. -/
theorem C6_generate_merge : ∀ (e : Bool) (docs : List MdDoc) (m : Metadata),
    generate_metadata e docs (generate_metadata e docs m) = generate_metadata e docs m
    ∧ (∀ (k : String) (r : ArticleRecord),
        lookupKey m k = some r → lookupKey (generate_metadata e docs m) k = some r)
    ∧ (∀ k : String, hasKey (generate_metadata e docs m) k = true →
        hasKey m k = true ∨ ∃ d, d ∈ docs ∧ d.stem = k)
    ∧ generate_metadata false docs m = m := by
  intro e docs m
  cases e with
  | false => exact ⟨rfl, fun k r h => h, fun k h => Or.inl h, rfl⟩
  | true =>
    have hg : ∀ mm : Metadata, generate_metadata true docs mm = mergeDocs mm docs := by
      intro mm
      simp [generate_metadata]
    refine ⟨?_, ?_, ?_, rfl⟩
    · rw [hg, hg]
      exact mergeDocs_stable docs _ (fun d hd => mergeDocs_hasKey_all docs m d hd)
    · intro k r h
      rw [hg]
      exact mergeDocs_lookup_preserved docs m k r h
    · intro k h
      rw [hg] at h
      exact mergeDocs_new_keys docs m k h

/-- A document with empty frontmatter, and a concrete pre-existing record,
used by witnesses. -/
def mdDocEmpty : MdDoc :=
  { stem := "k1", fm := { title := none, author := none, source := none } }

def recK : ArticleRecord := { title := "T", url := "U", author := "A" }

/-- Witness for C6: an existing key keeps its record across a run. -/
theorem C6_generate_merge_witness :
    lookupKey (generate_metadata true [mdDocEmpty] [("k", recK)]) "k" = some recK :=
  (C6_generate_merge true [mdDocEmpty] [("k", recK)]).2.1 "k" recK (by decide)

/-- Claim C9: author normalization in metadata generation — an absent
field or an empty list gives the default organization name, a non-empty
list gives its first element, and a scalar is kept as-is. -/
theorem C9_author_normalization : ∀ (d : MdDoc),
    (d.fm.author = none → (deriveRecord d).author = defaultAuthor)
    ∧ (d.fm.author = some (AuthorVal.list []) → (deriveRecord d).author = defaultAuthor)
    ∧ (∀ (a : String) (l : List String),
        d.fm.author = some (AuthorVal.list (a :: l)) → (deriveRecord d).author = a)
    ∧ (∀ s : String, d.fm.author = some (AuthorVal.str s) → (deriveRecord d).author = s) := by
  intro d
  refine ⟨fun h => ?_, fun h => ?_, fun a l h => ?_, fun s h => ?_⟩ <;>
    simp [deriveRecord, h]

/-- Documents exercising the four author shapes for the C9 witness. -/
def mdDocListEmpty : MdDoc :=
  { stem := "k2", fm := { title := none, author := some (AuthorVal.list []), source := none } }

def mdDocListTwo : MdDoc :=
  { stem := "k3",
    fm := { title := none, author := some (AuthorVal.list ["Alice", "Bob"]), source := none } }

def mdDocScalar : MdDoc :=
  { stem := "k4", fm := { title := none, author := some (AuthorVal.str "Carol"), source := none } }

/-- Witness for C9 at the four concrete author shapes. -/
theorem C9_author_normalization_witness :
    (deriveRecord mdDocEmpty).author = defaultAuthor
    ∧ (deriveRecord mdDocListEmpty).author = defaultAuthor
    ∧ (deriveRecord mdDocListTwo).author = "Alice"
    ∧ (deriveRecord mdDocScalar).author = "Carol" :=
  ⟨(C9_author_normalization mdDocEmpty).1 rfl,
   (C9_author_normalization mdDocListEmpty).2.1 rfl,
   (C9_author_normalization mdDocListTwo).2.2.1 "Alice" ["Bob"] rfl,
   (C9_author_normalization mdDocScalar).2.2.2 "Carol" rfl⟩

/-- Metadata exhibiting the citation-resolver divergence: the key `"ab"`
exists, and the raw title `"a.mdb"` carries `".md"` in the middle, not as
a suffix. -/
def c7meta : AppMetadata :=
  [("ab", { title := "Some Article", url := "https://example.com/ab" })]

/-- Claim C7, divergence of the code from the suffix-stripping contract:
`filename.replace('.md', '')` removes every occurrence of `".md"`, not
only a trailing suffix (despite the comment `# .md 확장자 제거` directly
above it). On the title `"a.mdb"`, which has no `".md"` suffix, the code
resolves via key `"ab"` and returns that entry with its URL, while the
specified suffix-stripping resolver (`specResolve`) returns the raw title
with a null URL. On ordinary titles such as `"article-42.md"` the two
agree. -/
theorem C7_resolver_divergence :
    get_article_info c7meta "a.mdb"
      = { title := "Some Article", url := some "https://example.com/ab" }
    ∧ specResolve c7meta "a.mdb" = { title := "a.mdb", url := none }
    ∧ get_article_info c7meta "a.mdb" ≠ specResolve c7meta "a.mdb"
    ∧ keyOf "article-42.md" = "article-42"
    ∧ get_article_info c7meta "article-42.md" = { title := "article-42.md", url := none }
    ∧ specResolve c7meta "article-42.md" = { title := "article-42.md", url := none } := by
  decide

/-- Claim C8: in the upload loop, a name ends up in the tracked set exactly
when it was already tracked or belongs to a file at most the 10 MiB
ceiling whose upload succeeded — so an oversized file is never added; the
success and failure tallies count exactly the non-oversized files by
upload outcome, so a skip lands in neither tally; and the event trace has
one event per file, so every file of the batch is processed and the batch
never aborts. -/
theorem C8_oversized_skip : ∀ (t : List String) (fs : List SyncFile) (n : String),
    (n ∈ (uploadLoop t fs).tracked ↔
      n ∈ t ∨ ∃ f, f ∈ fs ∧ f.name = n ∧ f.size ≤ maxUpload ∧ f.ok = true)
    ∧ (uploadLoop t fs).uploaded
        = (fs.filter (fun f => decide (f.size ≤ maxUpload) && f.ok)).length
    ∧ (uploadLoop t fs).failed
        = (fs.filter (fun f => decide (f.size ≤ maxUpload) && !f.ok)).length
    ∧ (uploadLoop t fs).evs.length = fs.length :=
  fun t fs n =>
    ⟨uploadLoop_tracked_mem fs t n, uploadLoop_uploaded fs t,
     uploadLoop_failed fs t, uploadLoop_evs_length fs t⟩

/-- Three small successfully-uploading files, for the C1 counterexample. -/
def crashFiles : List SyncFile :=
  [{ name := "a.md", size := 1, ok := true },
   { name := "b.md", size := 1, ok := true },
   { name := "c.md", size := 1, ok := true }]

/-- Claim C1 counterexample: the tracker is written only once, at the very
end of the batch, so a run over three files that crashes after the first
two uploads completed leaves the on-disk tracker unchanged; the next run
then re-uploads both completed files (and the third). Two files whose
uploads had completed are re-uploaded — more than "at most the single
in-flight file" that the claim allows. -/
theorem C1_counterexample :
    completedUploads ((runSync [] crashFiles).take 2) = ["a.md", "b.md"]
    ∧ diskAfter [] ((runSync [] crashFiles).take 2) = []
    ∧ completedUploads
        (runSync (diskAfter [] ((runSync [] crashFiles).take 2)) crashFiles)
        = ["a.md", "b.md", "c.md"]
    ∧ 2 ≤ ((completedUploads ((runSync [] crashFiles).take 2)).filter
        (fun n => (completedUploads
          (runSync (diskAfter [] ((runSync [] crashFiles).take 2)) crashFiles)).contains n)).length := by
  decide

/-- Claim C1 as amended: when there are new files, the run's trace is the
batch events followed by exactly one tracker save at the very end (one
save in the whole trace, none per file); consequently a crash at any point
strictly before the end of the trace leaves the on-disk tracker unchanged,
so the next run is identical to the interrupted one — every file of the
batch, completed uploads included, is re-uploaded; and the saved tracked
set never records a name that was not previously tracked or successfully
uploaded as a file within the size ceiling, so no file is silently lost. -/
theorem C1_amended : ∀ (disk : List String) (mdFiles : List SyncFile),
    (newFilesOf disk mdFiles ≠ [] →
      runSync disk mdFiles
        = (uploadLoop disk (newFilesOf disk mdFiles)).evs
          ++ [SyncEv.save (uploadLoop disk (newFilesOf disk mdFiles)).tracked]
      ∧ (runSync disk mdFiles).countP isSave = 1)
    ∧ (∀ k, k < (runSync disk mdFiles).length →
        diskAfter disk ((runSync disk mdFiles).take k) = disk)
    ∧ (∀ k, k < (runSync disk mdFiles).length →
        runSync (diskAfter disk ((runSync disk mdFiles).take k)) mdFiles
          = runSync disk mdFiles)
    ∧ (∀ n, n ∈ (uploadLoop disk (newFilesOf disk mdFiles)).tracked ↔
        n ∈ disk ∨ ∃ f, f ∈ newFilesOf disk mdFiles ∧ f.name = n
          ∧ f.size ≤ maxUpload ∧ f.ok = true) := by
  intro disk mdFiles
  have hcrash : ∀ k, k < (runSync disk mdFiles).length →
      diskAfter disk ((runSync disk mdFiles).take k) = disk := by
    intro k hk
    by_cases hne : newFilesOf disk mdFiles = []
    · have : runSync disk mdFiles = [] := by
        simp [runSync, hne]
      rw [this, List.take_nil]
      rfl
    · rw [runSync_eq disk mdFiles hne] at hk ⊢
      have hkle : k ≤ (uploadLoop disk (newFilesOf disk mdFiles)).evs.length := by
        rw [List.length_append] at hk
        simp at hk
        omega
      rw [List.take_append_of_le_length hkle]
      refine diskAfter_no_save _ disk ?_
      intro e he
      exact uploadLoop_no_save _ disk e (List.take_subset k _ he)
  refine ⟨?_, hcrash, ?_, fun n => uploadLoop_tracked_mem _ disk n⟩
  · intro hne
    refine ⟨runSync_eq disk mdFiles hne, ?_⟩
    rw [runSync_eq disk mdFiles hne, List.countP_append]
    have h0 : (uploadLoop disk (newFilesOf disk mdFiles)).evs.countP isSave = 0 := by
      rw [List.countP_eq_zero]
      intro e he
      simp [uploadLoop_no_save _ disk e he]
    rw [h0]
    rfl
  · intro k hk
    rw [hcrash k hk]

/-- One small successfully-uploading file, for the C1 witness. -/
def oneFile : List SyncFile := [{ name := "a.md", size := 1, ok := true }]

/-- Witness for C1 as amended: a one-file run saves exactly once, and a
crash after its first event leaves the disk tracker empty. -/
theorem C1_amended_witness :
    (runSync [] oneFile).countP isSave = 1
    ∧ diskAfter [] ((runSync [] oneFile).take 1) = [] :=
  ⟨((C1_amended [] oneFile).1 (by decide)).2,
   (C1_amended [] oneFile).2.1 1 (by decide)⟩

/-- Claim C2 counterexample: a listing failure is not fatal. With the
listing call answering HTTP 500, `list_stores` swallows the status and
returns the empty list, `main` finds no matching display name, creates a
store, and the run proceeds to attempt (and here complete) an upload —
contradicting "failure of the remote store listing is fatal for the run
(no uploads are attempted)". -/
theorem C2_counterexample :
    listingFailed (NetResult.resp 500 ([] : List StoreEntry)) = true
    ∧ ingestRun (NetResult.resp 500 [])
        (NetResult.resp 200 { displayName := storeName, name := "fileSearchStores/x" })
        true [{ name := "a.md", size := 1, ok := true }] []
      = RunOutcome.done
          { evs := [SyncEv.upOk "a.md"], tracked := ["a.md"], uploaded := 1, failed := 0 } := by
  decide

/-- Claim C2 as amended: a raised exception during the listing or creation
call, or a non-200 creation response, aborts the run before any upload
(the bootstrap error becomes the fatal outcome); a non-200 listing
response, however, is swallowed — the run behaves exactly as if the
listing had returned no stores, and proceeds through store creation to the
uploads; once a store identifier exists, the batch always runs to
completion and per-file upload failures are merely tallied. -/
theorem C2_amended : ∀ (listR : NetResult (List StoreEntry))
    (createR : NetResult StoreEntry) (dir : Bool) (files : List SyncFile)
    (disk : List String),
    (∀ m, bootstrap listR createR = Except.error m →
        ingestRun listR createR dir files disk = RunOutcome.fatal m)
    ∧ (∀ m, listR = NetResult.exn m → bootstrap listR createR = Except.error m)
    ∧ (∀ (s : Nat) (b : List StoreEntry), s ≠ 200 →
        bootstrap (NetResult.resp s b) createR = bootstrap (NetResult.resp 200 []) createR)
    ∧ (∀ m, createR = NetResult.exn m →
        existingMapLookup [] storeName = none →
        bootstrap (NetResult.resp 500 []) createR = Except.error m)
    ∧ (∀ (cs : Nat) (cb : StoreEntry) (b : List StoreEntry),
        createR = NetResult.resp cs cb → cs ≠ 200 →
        existingMapLookup b storeName = none →
        bootstrap (NetResult.resp 200 b) createR
          = Except.error ("스토어 생성 실패: " ++ toString cs))
    ∧ (∀ sid, bootstrap listR createR = Except.ok sid → dir = true →
        newFilesOf disk files ≠ [] →
        ingestRun listR createR dir files disk
          = RunOutcome.done (uploadLoop disk (newFilesOf disk files)))
    ∧ (uploadLoop disk (newFilesOf disk files)).failed
        = ((newFilesOf disk files).filter
            (fun f => decide (f.size ≤ maxUpload) && !f.ok)).length := by
  intro listR createR dir files disk
  refine ⟨?_, ?_, ?_, ?_, ?_, ?_, uploadLoop_failed _ disk⟩
  · intro m h
    simp [ingestRun, h]
  · intro m h
    rw [h]
    rfl
  · intro s b hs
    simp [bootstrap, list_stores, hs]
  · intro m h _
    rw [h]
    rfl
  · intro cs cb b h hcs hlook
    rw [h]
    simp [bootstrap, list_stores, create_store, hlook, hcs]
  · intro sid h hdir hne
    have hie : (newFilesOf disk files).isEmpty = false := by
      simp [List.isEmpty_iff, hne]
    simp [ingestRun, h, hdir, hie]

/-- The store entry used by the C2 witness. -/
def storeX : StoreEntry := { displayName := storeName, name := "fileSearchStores/x" }

/-- Witness for C2 as amended: an exception during listing is fatal, and a
successful bootstrap over one new file completes the batch. -/
theorem C2_amended_witness :
    ingestRun (NetResult.exn "boom") (NetResult.resp 200 storeX)
        true [{ name := "a.md", size := 1, ok := true }] []
      = RunOutcome.fatal "boom"
    ∧ ingestRun (NetResult.resp 200 []) (NetResult.resp 200 storeX)
        true [{ name := "a.md", size := 1, ok := true }] []
      = RunOutcome.done
          (uploadLoop [] (newFilesOf [] [{ name := "a.md", size := 1, ok := true }])) :=
  ⟨(C2_amended (NetResult.exn "boom") (NetResult.resp 200 storeX) true
      [{ name := "a.md", size := 1, ok := true }] []).1 "boom" rfl,
   (C2_amended (NetResult.resp 200 []) (NetResult.resp 200 storeX) true
      [{ name := "a.md", size := 1, ok := true }] []).2.2.2.2.2.1
      "fileSearchStores/x" rfl rfl (by decide)⟩

end Girogi
